import Mathlib

/-!
Verification of the MCP Botpress-integration repository.

The repository contains three divergent variants of the same
connection-lifecycle logic:

* `src/unnamed/part_003` — the stdio/SSE `MCPClient` (argument parsing,
  environment merging, transport construction, best-effort disconnect);
* `src/src/client3.ts` — the Smithery websocket `MCPClient` plus the
  `SmitheryRegistryClient` (registry resolution, 30 s connect timeout);
* `src/src/index.ts`, `src/src/index2.ts`, `src/src/index3.ts` and
  `src/unnamed/part_002` — the Botpress integration entry points
  (register / unregister / six actions over a client-cache map).

Each definition below is a shallow embedding of one of those source
functions: JavaScript exceptions become `Except` errors, promise
outcomes become explicit parameters, and the process-wide cache map
becomes an association list passed in and returned.
-/

/-- JavaScript error model: a raw (unwrapped) exception versus a
Botpress `sdk.RuntimeError`, each carrying its message. -/
inductive JsError
  | raw (msg : String)
  | runtimeError (msg : String)
  deriving DecidableEq, Repr

/-- JSON values, as produced by `JSON.parse`.  Numbers keep their raw
lexeme: no claim depends on numeric normalisation. -/
inductive JsonValue
  | null
  | bool (b : Bool)
  | num (raw : String)
  | str (s : String)
  | arr (xs : List JsonValue)
  | obj (kvs : List (String × JsonValue))

namespace JsonValue

mutual

/-- JavaScript `String(v)` coercion, restricted to JSON values:
strings pass through, numbers keep their lexeme, arrays join their
elements with commas, objects print as `[object Object]`. -/
def jsString : JsonValue → String
  | .null => "null"
  | .bool true => "true"
  | .bool false => "false"
  | .num raw => raw
  | .str s => s
  | .arr xs => jsStringList xs
  | .obj _ => "[object Object]"

/-- `Array.prototype.toString`: elements joined by commas. -/
def jsStringList : List JsonValue → String
  | [] => ""
  | [x] => jsString x
  | x :: y :: xs => jsString x ++ "," ++ jsStringList (y :: xs)

end

end JsonValue

/-- Whitespace skipped by `JSON.parse` between tokens. -/
def jsonSkipWs : List Char → List Char
  | c :: cs => if c = ' ' ∨ c = '\t' ∨ c = '\n' ∨ c = '\r' then jsonSkipWs cs else c :: cs
  | [] => []

/-- Decode a JSON string literal after the opening quote; handles the
standard escapes including `\uXXXX`. -/
def jsonStringLit : List Char → List Char → Option (String × List Char)
  | acc, '"' :: rest => some (String.mk acc.reverse, rest)
  | acc, '\\' :: 'u' :: h1 :: h2 :: h3 :: h4 :: rest =>
    if h1.isDigit ∨ ('a' ≤ h1 ∧ h1 ≤ 'f') ∨ ('A' ≤ h1 ∧ h1 ≤ 'F') then
      let hex := fun (c : Char) =>
        if c.isDigit then c.toNat - '0'.toNat
        else if 'a' ≤ c ∧ c ≤ 'f' then c.toNat - 'a'.toNat + 10
        else c.toNat - 'A'.toNat + 10
      let n := ((hex h1 * 16 + hex h2) * 16 + hex h3) * 16 + hex h4
      jsonStringLit (Char.ofNat n :: acc) rest
    else none
  | acc, '\\' :: c :: rest =>
    (match c with
     | '"' => some '"'
     | '\\' => some '\\'
     | '/' => some '/'
     | 'b' => some (Char.ofNat 8)
     | 'f' => some (Char.ofNat 12)
     | 'n' => some '\n'
     | 'r' => some '\r'
     | 't' => some '\t'
     | _ => none).bind (fun d => jsonStringLit (d :: acc) rest)
  | acc, c :: rest =>
    if c = '"' ∨ c = '\\' then none else jsonStringLit (c :: acc) rest
  | _, [] => none

/-- Characters that may occur in a JSON number lexeme. -/
def jsonNumChar (c : Char) : Bool :=
  c.isDigit ∨ c = '-' ∨ c = '+' ∨ c = '.' ∨ c = 'e' ∨ c = 'E'

/-- Greedily take a number lexeme. -/
def jsonTakeNum : List Char → List Char × List Char
  | c :: cs =>
    if jsonNumChar c then
      let (tok, rest) := jsonTakeNum cs
      (c :: tok, rest)
    else ([], c :: cs)
  | [] => ([], [])

mutual

/-- One step of `JSON.parse`: parse a value off the front of the input.
Fuel bounds the nesting depth; `jsonParse` supplies enough for any
input. -/
def jsonValueCore : Nat → List Char → Option (JsonValue × List Char)
  | 0, _ => none
  | fuel + 1, cs =>
    match jsonSkipWs cs with
    | 'n' :: 'u' :: 'l' :: 'l' :: rest => some (.null, rest)
    | 't' :: 'r' :: 'u' :: 'e' :: rest => some (.bool true, rest)
    | 'f' :: 'a' :: 'l' :: 's' :: 'e' :: rest => some (.bool false, rest)
    | '"' :: rest => (jsonStringLit [] rest).map (fun p => (.str p.1, p.2))
    | '[' :: rest =>
      (match jsonSkipWs rest with
       | ']' :: rest2 => some (.arr [], rest2)
       | other => jsonArrElems fuel other [])
    | '{' :: rest =>
      (match jsonSkipWs rest with
       | '}' :: rest2 => some (.obj [], rest2)
       | other => jsonObjElems fuel other [])
    | c :: rest =>
      if c.isDigit ∨ c = '-' then
        let (tok, rest2) := jsonTakeNum (c :: rest)
        some (.num (String.mk tok), rest2)
      else none
    | [] => none

/-- Comma-separated array elements up to the closing bracket. -/
def jsonArrElems : Nat → List Char → List JsonValue → Option (JsonValue × List Char)
  | 0, _, _ => none
  | fuel + 1, cs, acc =>
    match jsonValueCore fuel cs with
    | none => none
    | some (v, rest) =>
      match jsonSkipWs rest with
      | ',' :: rest2 => jsonArrElems fuel rest2 (v :: acc)
      | ']' :: rest2 => some (.arr (v :: acc).reverse, rest2)
      | _ => none

/-- Comma-separated `"key": value` members up to the closing brace. -/
def jsonObjElems : Nat → List Char → List (String × JsonValue) → Option (JsonValue × List Char)
  | 0, _, _ => none
  | fuel + 1, cs, acc =>
    match jsonSkipWs cs with
    | '"' :: rest =>
      match jsonStringLit [] rest with
      | none => none
      | some (k, rest2) =>
        match jsonSkipWs rest2 with
        | ':' :: rest3 =>
          match jsonValueCore fuel rest3 with
          | none => none
          | some (v, rest4) =>
            match jsonSkipWs rest4 with
            | ',' :: rest5 => jsonObjElems fuel rest5 ((k, v) :: acc)
            | '}' :: rest5 => some (.obj ((k, v) :: acc).reverse, rest5)
            | _ => none
        | _ => none
    | _ => none

end

/-- `JSON.parse(s)`: parse one value and require only whitespace after
it; `none` models a thrown `SyntaxError`. -/
def jsonParse (s : String) : Option JsonValue :=
  match jsonValueCore (s.length + 1) s.toList with
  | some (v, rest) => if jsonSkipWs rest = [] then some v else none
  | none => none

/-! ## Generic string and association-map helpers

JavaScript string methods are modelled through `List Char` so that every
operation reduces definitionally. The connection map (`Map` in the
sources) and the environment object become association lists in which
`mapSet` replaces an existing binding in place. -/

/-- Split on every occurrence of one character, keeping empty pieces:
JavaScript `s.split(c)`. -/
def splitCharList (c : Char) : List Char → List (List Char)
  | [] => [[]]
  | x :: xs =>
    let r := splitCharList c xs
    if x = c then [] :: r
    else
      match r with
      | h :: t => (x :: h) :: t
      | [] => [[x]]

/-- JavaScript `s.split(c)` on strings. -/
def splitChar (c : Char) (s : String) : List String :=
  (splitCharList c s.toList).map String.mk

/-- JavaScript `s.startsWith(pre)`. -/
def strStartsWith (pre s : String) : Bool :=
  s.toList.take pre.length = pre.toList

/-- JavaScript `s.substring(n)`: drop the first `n` characters. -/
def strDrop (n : Nat) (s : String) : String :=
  String.mk (s.toList.drop n)

/-- JavaScript `s.replace(c, "")`: remove only the first occurrence. -/
def removeFirstCharList (c : Char) : List Char → List Char
  | [] => []
  | x :: xs => if x = c then xs else x :: removeFirstCharList c xs

/-- JavaScript `s.replace('@', '')` and friends, on strings. -/
def removeFirstChar (c : Char) (s : String) : String :=
  String.mk (removeFirstCharList c s.toList)

/-- Lookup in an association map (`Map.get` / property read); keys are
unique, so first match suffices. -/
def mapGet {α : Type} : List (String × α) → String → Option α
  | [], _ => none
  | p :: ps, k => if p.1 = k then some p.2 else mapGet ps k

/-- Key membership (`Map.has` / `in`). -/
def mapHas {α : Type} : List (String × α) → String → Bool
  | [], _ => false
  | p :: ps, k => p.1 = k || mapHas ps k

/-- `Map.set` / property assignment: replace an existing binding in
place, otherwise append. -/
def mapSet {α : Type} (m : List (String × α)) (k : String) (v : α) : List (String × α) :=
  if mapHas m k then
    m.map (fun p => if p.1 = k then (k, v) else p)
  else m ++ [(k, v)]

/-! ## part_003 `MCPClient` constructor: argument parsing

Embeds `src/unnamed/part_003` lines 111-131.  `config.args` is either
a JavaScript array, a string, or absent. -/

/-- The possible shapes of `config.args` reaching the constructor. -/
inductive ArgsInput
  | arrIn (xs : List JsonValue)
  | strIn (s : String)
  | absent

/-- `config.args.split(' ').filter(Boolean)`: split on single spaces
and drop empty (falsy) tokens. -/
def splitFilter (s : String) : List String :=
  (splitChar ' ' s).filter (fun t => t ≠ "")

/-- Argument parsing from the part_003 constructor: array passthrough
(elements coerced with `String`), then an attempted JSON parse of a
string input (used only when it yields an array), then the
space-splitting fallback; absent `args` yield `[]`. -/
def parseArgs : ArgsInput → List String
  | .arrIn xs => xs.map JsonValue.jsString
  | .strIn s =>
    match jsonParse s with
    | some (.arr xs) => xs.map JsonValue.jsString
    | some _ => splitFilter s
    | none => splitFilter s
  | .absent => []

/-! ## part_003 `MCPClient` constructor: environment construction

Embeds `src/unnamed/part_003` lines 70-107: parse `config.environments`
(object, or JSON-encoded string), coerce every value with `String`,
then merge `MCP_`-prefixed process environment variables in under their
unprefixed names when the name is not already set to a truthy value. -/

/-- The possible shapes of `config.environments`. -/
inductive EnvInput
  | objIn (kvs : List (String × JsonValue))
  | strIn (s : String)
  | absent

/-- The key/value pairs contributed by the explicit config: an object
passes through; a string is `JSON.parse`d and used when the result is
of JavaScript type object and non-null (an array counts, its keys being
the indices); anything else leaves the environment empty. -/
def parseEnvInput : EnvInput → List (String × String)
  | .objIn kvs => kvs.map (fun p => (p.1, JsonValue.jsString p.2))
  | .strIn s =>
    match jsonParse s with
    | some (.obj kvs) => kvs.map (fun p => (p.1, JsonValue.jsString p.2))
    | some (.arr xs) => xs.enum.map (fun p => (toString p.1, JsonValue.jsString p.2))
    | _ => []
  | .absent => []

/-- The `env` object after the config pass (`env[key] = String(...)`
over `Object.keys`). -/
def buildEnvBase (cfg : EnvInput) : List (String × String) :=
  (parseEnvInput cfg).foldl (fun m p => mapSet m p.1 p.2) []

/-- One iteration of the `for (const key in process.env)` loop: a
truthy variable named `MCP_<NAME>` is added under `<NAME>` unless
`env[<NAME>]` is already truthy (set and non-empty). -/
def mergeMcpVar (m : List (String × String)) (k v : String) : List (String × String) :=
  if strStartsWith "MCP_" k ∧ v ≠ "" then
    match mapGet m (strDrop 4 k) with
    | none => mapSet m (strDrop 4 k) v
    | some old => if old = "" then mapSet m (strDrop 4 k) v else m
  else m

/-- The final environment passed to `StdioClientTransport`: the config
pass followed by the `MCP_` merge over the process environment. -/
def buildEnv (cfg : EnvInput) (proc : List (String × String)) : List (String × String) :=
  proc.foldl (fun m p => mergeMcpVar m p.1 p.2) (buildEnvBase cfg)

/-! ## `src/src/client3.ts`: registry resolution

The `SmitheryRegistryClient`. The HTTP backend is an external
collaborator and enters as a function parameter; the wrapping of its
failures into descriptive errors and the fallback-search policy are the
repository code (`registry` part of client3.ts, lines 159-260). -/

/-- One entry of a registry server's `connections` list. -/
structure RegistryConn where
  type : String
  url : Option String
  deriving DecidableEq, Repr

/-- Registry server metadata (`RegistryServerInfo`). -/
structure ServerInfo where
  qualifiedName : String
  displayName : String
  deploymentUrl : String
  connections : List RegistryConn
  deriving DecidableEq, Repr

/-- The `GET /servers` response body: the `servers` field may be
absent. -/
structure SearchResults where
  servers : Option (List ServerInfo)
  deriving DecidableEq, Repr

/-- `getServer` name formatting: `owner/repo` without a leading `@`
becomes `@owner/repo` (first component prefixed, rest rejoined). -/
def normalizeQualifiedName (q : String) : String :=
  if q.toList.contains '/' && !(strStartsWith "@" q) then
    match splitChar '/' q with
    | owner :: repoParts => "@" ++ owner ++ "/" ++ String.intercalate "/" repoParts
    | [] => q
  else q

/-- `SmitheryRegistryClient.getServer`: normalize the name, call the
HTTP backend, wrap a failure into a descriptive error. -/
def getServerCall (backend : String → Except String ServerInfo) (q : String) :
    Except String ServerInfo :=
  let qn := normalizeQualifiedName q
  match backend qn with
  | .ok r => .ok r
  | .error e => .error ("Failed to get server info for " ++ qn ++ ": " ++ e)

/-- `SmitheryRegistryClient.listServers`: call the HTTP backend, wrap a
failure into a descriptive error. -/
def listServersCall (backend : String → Except String SearchResults) (query : String) :
    Except String SearchResults :=
  match backend query with
  | .ok r => .ok r
  | .error e => .error ("Failed to list servers: " ++ e)

/-- The fallback search query derived from a qualified name containing
a slash: `owner:<owner> repo:<repo> is:deployed`, the owner's first `@`
removed; a name with no slash is used verbatim. -/
def deriveSearchQuery (q : String) : String :=
  if q.toList.contains '/' then
    "owner:" ++ removeFirstChar '@' ((splitChar '/' q).headD "")
      ++ " repo:" ++ (splitChar '/' q).getD 1 ""
      ++ " is:deployed"
  else q

/-- `SmitheryRegistryClient.findServerConfiguration`: direct
`getServer`, then on failure a `listServers` search whose first result
is re-resolved through `getServer`; an empty or missing result list
produces the `Could not find server` error. -/
def findServerConfiguration (getB : String → Except String ServerInfo)
    (listB : String → Except String SearchResults) (q : String) :
    Except String ServerInfo :=
  match getServerCall getB q with
  | .ok r => .ok r
  | .error _ =>
    match listServersCall listB (deriveSearchQuery q) with
    | .error e => .error e
    | .ok res =>
      match res.servers with
      | some (s :: _) => getServerCall getB s.qualifiedName
      | _ => .error ("Could not find server matching " ++ q)

/-! ## `src/src/client3.ts`: websocket `MCPClient` connect / disconnect

The client's observable state is its `connected` flag plus the number
of transports it has built (to witness that no new transport is created
on an already-connected client).  The registry resolution outcome, the
time at which the underlying `client.connect` promise would settle and
its result are parameters; `Promise.race` against
`setTimeout(..., 30000)` selects the timeout whenever the underlying
connect has not settled strictly before 30000 ms. -/

/-- The mutable state of a client3 `MCPClient`. -/
structure Client3State where
  connected : Bool
  transportCount : Nat
  deriving DecidableEq, Repr

/-- The fixed connect timeout, milliseconds (client3.ts line 78). -/
def connectTimeoutMs : Nat := 30000

/-- `MCPClient.connect` (client3.ts lines 35-98): immediate return when
already connected; registry resolution; requirement of a `ws`
connection entry; transport construction; the race of the underlying
connect against the 30 s timeout.  Every failure leaves `connected`
false and rethrows. -/
def client3Connect (st : Client3State) (qn : String)
    (registry : Except String ServerInfo) (connectAt : Nat)
    (underlying : Except String Unit) : Client3State × Except String Unit :=
  if st.connected then (st, .ok ())
  else
    match registry with
    | .error e => ({ st with connected := false }, .error e)
    | .ok sInfo =>
      match sInfo.connections.find? (fun c => c.type = "ws") with
      | none =>
        ({ st with connected := false },
         .error ("No WebSocket connection available for " ++ qn))
      | some _ =>
        let st1 : Client3State := { st with transportCount := st.transportCount + 1 }
        if connectAt < connectTimeoutMs then
          match underlying with
          | .ok _ => ({ st1 with connected := true }, .ok ())
          | .error e => ({ st1 with connected := false }, .error e)
        else ({ st1 with connected := false }, .error "Connection timeout")

/-- `MCPClient.disconnect` (client3.ts lines 100-114): immediate return
when not connected; otherwise close the underlying client, and on a
close failure log a warning, mark the client disconnected anyway, and
rethrow the error. -/
def client3Disconnect (st : Client3State) (closeOutcome : Except String Unit) :
    Client3State × Except String Unit :=
  if st.connected then
    match closeOutcome with
    | .ok _ => ({ st with connected := false }, .ok ())
    | .error e => ({ st with connected := false }, .error e)
  else (st, .ok ())

/-! ## `src/src/index3.ts`: connection map, reconnect and teardown -/

/-- `getOrReconnectClient` (index3.ts lines 238-273): a cached client is
returned as is; otherwise the config is parsed (`cfg` carries the
qualified name or the config error), a fresh client is connected, and
only on success is it stored in the map.  The stale-connection probe in
the source is an empty `try` block whose catch is unreachable and is
not modelled. -/
def getOrReconnectClient (m : List (String × Client3State)) (internalName : String)
    (cfg : Except String String) (registry : Except String ServerInfo)
    (connectAt : Nat) (underlying : Except String Unit) :
    List (String × Client3State) × Except JsError Client3State :=
  match mapGet m internalName with
  | some st => (m, .ok st)
  | none =>
    match cfg with
    | .error e => (m, .error (.runtimeError e))
    | .ok qn =>
      let r := client3Connect ⟨false, 0⟩ qn registry connectAt underlying
      match r.2 with
      | .ok _ => (mapSet m internalName r.1, .ok r.1)
      | .error e => (m, .error (.raw e))

/-- `unregister` (index3.ts lines 107-125): each cached client's
`disconnect` is awaited inside a `try` whose catch only logs a warning,
and afterwards `connectedClients.clear()` empties the map.  The result
is the new map together with the warning log; no exception component
exists because every throw is caught. -/
def index3Unregister (m : List (String × Client3State))
    (closeOf : String → Except String Unit) :
    List (String × Client3State) × List String :=
  let logs := m.foldl (fun acc p =>
    match (client3Disconnect p.2 (closeOf p.1)).2 with
    | .ok _ => acc
    | .error e => acc ++ ["Error disconnecting client for " ++ p.1 ++ ": " ++ e]) []
  ([], logs)

/-! ## `src/unnamed/part_003`: best-effort disconnect -/

/-- What the transport offers at teardown: no `close` member, or a
`close()` call with its outcome. -/
inductive TransportClose
  | noClose
  | closes (r : Except String Unit)

/-- part_003 `MCPClient.disconnect` (lines 355-372): a transport
without `close` is only logged; a `close()` call is wrapped in a `try`
whose catch logs a warning; nothing is rethrown. -/
def p3Disconnect : TransportClose → Except String Unit
  | .noClose => .ok ()
  | .closes (.ok _) => .ok ()
  | .closes (.error _) => .ok ()

/-! ## Registration variants -/

/-- One raw entry of `ctx.configuration.servers`; a missing field and
an empty string are both falsy in the source's checks. -/
structure ServerEntry where
  internalName : Option String
  smitheryQualifiedName : Option String
  smitheryServerConfigJson : Option String
  deriving DecidableEq, Repr

/-- JavaScript truthiness of an optional string field. -/
def jsTruthy : Option String → Bool
  | none => false
  | some s => s ≠ ""

/-- A validated per-server configuration (index.ts lines 30-39). -/
structure ServerCfg where
  internalName : String
  qualifiedName : String
  serverConfigJson : String
  deriving DecidableEq, Repr

/-- The validation prefix of `register` shared by `src/src/index.ts`
(lines 25-39) and `src/unnamed/part_002` (lines 14-28): an empty (or
missing) server list throws `RuntimeError`, then each entry must have
truthy `internalName` and `smitheryQualifiedName`, with the config JSON
defaulting to the empty object string. -/
def indexRegisterConfigs (servers : Option (List ServerEntry)) :
    Except JsError (List ServerCfg) :=
  let ss := (match servers with | some l => l | none => [])
  if ss.length = 0 then
    .error (.runtimeError "At least one MCP server configuration is required.")
  else
    ss.mapM (fun server =>
      if jsTruthy server.internalName && jsTruthy server.smitheryQualifiedName then
        .ok { internalName := (match server.internalName with | some s => s | none => "")
            , qualifiedName := (match server.smitheryQualifiedName with | some s => s | none => "")
            , serverConfigJson :=
                (if jsTruthy server.smitheryServerConfigJson then
                  (match server.smitheryServerConfigJson with | some s => s | none => "")
                 else "\x7b\x7d") }
      else
        .error (.runtimeError
          "Both internalName and qualifiedName are required for each server configuration."))

/-- `register` of `src/src/index3.ts` (lines 66-105): an empty (or
missing) server list only logs a warning and returns successfully
without connecting anything; otherwise each entry is set up in turn
(config parsing, client creation and connect abstracted into `setup`)
and any failure is wrapped into a `RuntimeError`.  The result lists the
internal names connected. -/
def index3Register (servers : Option (List ServerEntry))
    (setup : ServerEntry → Except String Unit) : Except JsError (List String) :=
  let cfgs := (match servers with | some l => l | none => [])
  if cfgs.length = 0 then .ok []
  else
    cfgs.mapM (fun config =>
      let internalName := (match config.internalName with | some s => s | none => "Unnamed Server")
      match setup config with
      | .ok _ => .ok internalName
      | .error e => .error (.runtimeError
          ("Failed to setup connection for server \"" ++ internalName ++ "\": " ++ e)))

/-! ## `src/src/index.ts`: actions over the cached-client map

In this variant every action reads `clientCache.get(internalName)` and
issues the RPC through optional chaining, so a missing client makes the
whole RPC expression `undefined` instead of failing.  The cache holds
opaque handles; each RPC outcome is a parameter. -/

/-- A raw tool as returned by the `listTools` RPC. -/
structure RawTool where
  name : Option String
  description : Option String
  inputSchema : Option JsonValue

/-- The normalized tool shape produced by the action. -/
structure ProjTool where
  name : String
  description : String
  schema : Option JsonValue

/-- The per-tool projection of the `listTools` action (index.ts lines
137-142, identical in index3.ts lines 174-179): `name` defaults under
`??`, `description` defaults under `||` (so an empty string is also
replaced), `schema` passes `inputSchema` through. -/
def projectTool (tool : RawTool) : ProjTool :=
  { name := tool.name.getD "Unnamed Tool"
  , description :=
      match tool.description with
      | some d => if d = "" then "Execute the " ++ tool.name.getD "?" ++ " tool" else d
      | none => "Execute the " ++ tool.name.getD "?" ++ " tool"
  , schema := tool.inputSchema }

/-- The `listTools` action (index.ts lines 128-148). -/
def listToolsAction (cache : List (String × Nat)) (internalName : String)
    (rpcOutcome : Except String (Option (List RawTool))) :
    Except JsError (List ProjTool) :=
  match mapGet cache internalName with
  | none => .ok []
  | some _ =>
    match rpcOutcome with
    | .ok mts => .ok ((match mts with | some ts => ts | none => []).map projectTool)
    | .error e => .error (.runtimeError ("Failed to list tools from " ++ internalName ++ ": " ++ e))

/-- The `listResources` action (index.ts lines 98-111). -/
def listResourcesAction (cache : List (String × Nat)) (internalName : String)
    (rpcOutcome : Except String (Option (List JsonValue))) :
    Except JsError (List JsonValue) :=
  match mapGet cache internalName with
  | none => .ok []
  | some _ =>
    match rpcOutcome with
    | .ok mrs => .ok (match mrs with | some rs => rs | none => [])
    | .error e => .error (.runtimeError ("Failed to list resources from " ++ internalName ++ ": " ++ e))

/-- The `try` block of the `executeTool` action: the optional-chained
`callTool` with its catch wrapping any RPC failure. -/
def executeToolTry (cache : List (String × Nat)) (internalName toolName : String)
    (rpcOutcome : Except String JsonValue) : Except JsError (Option JsonValue) :=
  match mapGet cache internalName with
  | none => .ok none
  | some _ =>
    match rpcOutcome with
    | .ok r => .ok (some r)
    | .error e => .error (.runtimeError
        ("Failed to execute tool \"" ++ toolName ++ "\" on " ++ internalName ++ ": " ++ e))

/-- The `executeTool` action (index.ts lines 150-163): a truthy
`stringParameters` is fed to `JSON.parse` before and outside the `try`
block, so a malformed string escapes as a raw `SyntaxError`. -/
def executeToolAction (cache : List (String × Nat)) (internalName toolName : String)
    (stringParameters : Option String) (rpcOutcome : Except String JsonValue) :
    Except JsError (Option JsonValue) :=
  let sp := (match stringParameters with | some s => s | none => "")
  if sp = "" then executeToolTry cache internalName toolName rpcOutcome
  else
    match jsonParse sp with
    | none => .error (.raw ("SyntaxError: Unexpected token in JSON at position 0: " ++ sp))
    | some _ => executeToolTry cache internalName toolName rpcOutcome

/-! ## Spec-side definitions and concrete registry stubs -/

/-- The amended description rule of the `listTools` projection, stated
from the spec's words: the raw description when present and non-empty,
otherwise `Execute the <name> tool` (the name falling back to `?`).
Compared against `projectTool`, the projection from the source. -/
def specToolDescription (tool : RawTool) : String :=
  match tool.description with
  | some d => if d ≠ "" then d else "Execute the " ++ tool.name.getD "?" ++ " tool"
  | none => "Execute the " ++ tool.name.getD "?" ++ " tool"

/-- A concrete registry server used to exercise the resolution policy:
the full info returned by the direct lookup of the search hit. -/
def serverB : ServerInfo :=
  { qualifiedName := "@owner/repo2", displayName := "Repo 2"
  , deploymentUrl := "https://r2", connections := [⟨"ws", some "wss://r2/ws"⟩] }

/-- A concrete search hit whose qualified name is re-resolved. -/
def serverA : ServerInfo :=
  { qualifiedName := "@owner/repo2", displayName := "Repo 2 (search hit)"
  , deploymentUrl := "https://r2", connections := [] }

/-- A registry backend that knows only `@owner/repo2`. -/
def regGetStub : String → Except String ServerInfo := fun n =>
  if n = "@owner/repo2" then Except.ok serverB
  else Except.error "Request failed with status code 404"

/-- A search backend returning a single hit for every query. -/
def regListStub : String → Except String SearchResults := fun _ =>
  Except.ok ⟨some [serverA]⟩

/-! ## Association-map lemmas -/

theorem mapGet_map_update_ne {α : Type} (ps : List (String × α)) (k n : String) (v : α)
    (h : n ≠ k) :
    mapGet (ps.map (fun p => if p.1 = k then (k, v) else p)) n = mapGet ps n := by
  induction ps with
  | nil => rfl
  | cons p ps ih =>
    by_cases hp : p.1 = k
    · simp [mapGet, hp, Ne.symm h, ih]
    · simp [mapGet, hp, ih]

theorem mapGet_map_update_self {α : Type} (ps : List (String × α)) (k : String) (v : α)
    (h : mapHas ps k = true) :
    mapGet (ps.map (fun p => if p.1 = k then (k, v) else p)) k = some v := by
  induction ps with
  | nil => simp [mapHas] at h
  | cons p ps ih =>
    by_cases hp : p.1 = k
    · simp [mapGet, hp]
    · simp [mapHas, hp] at h
      simp [mapGet, hp, ih h]

theorem mapGet_none_of_not_has {α : Type} (ps : List (String × α)) (k : String)
    (h : mapHas ps k = false) : mapGet ps k = none := by
  induction ps with
  | nil => rfl
  | cons p ps ih =>
    simp [mapHas] at h
    simp [mapGet, h.1, ih h.2]

theorem mapGet_append {α : Type} (xs ys : List (String × α)) (n : String) :
    mapGet (xs ++ ys) n = (mapGet xs n).or (mapGet ys n) := by
  induction xs with
  | nil => simp [mapGet]
  | cons x xs ih =>
    by_cases hx : x.1 = n
    · simp [mapGet, hx]
    · simp [mapGet, hx, ih]

theorem mapGet_mapSet {α : Type} (m : List (String × α)) (k n : String) (v : α) :
    mapGet (mapSet m k v) n = if n = k then some v else mapGet m n := by
  unfold mapSet
  by_cases hh : mapHas m k
  · rw [if_pos hh]
    by_cases hn : n = k
    · subst hn; simp [mapGet_map_update_self m n v hh]
    · simp [hn, mapGet_map_update_ne m k n v hn]
  · rw [if_neg hh]
    rw [mapGet_append]
    by_cases hn : n = k
    · subst hn
      simp [mapGet_none_of_not_has m n (by simpa using hh), mapGet]
    · by_cases hm : mapGet m n = none
      · simp [hm, mapGet, Ne.symm hn, hn]
      · rcases Option.ne_none_iff_exists.mp hm with ⟨w, hw⟩
        simp [← hw, hn]

/-! ## Environment-merge lemmas -/

/-- A name bound to a truthy (non-empty) value survives one iteration
of the `MCP_` merge loop untouched. -/
theorem mergeMcpVar_preserves (m : List (String × String)) (k v n w : String)
    (h : mapGet m n = some w) (hw : w ≠ "") :
    mapGet (mergeMcpVar m k v) n = some w := by
  unfold mergeMcpVar
  split
  · split
    · next heq =>
      rw [mapGet_mapSet]
      split
      · next hnk => rw [hnk, heq] at h; exact absurd h (by simp)
      · exact h
    · next old heq =>
      split
      · next holde =>
        rw [mapGet_mapSet]
        split
        · next hnk =>
          rw [hnk, heq] at h
          subst holde
          exact absurd (Option.some.inj h).symm hw
        · exact h
      · exact h
  · exact h

/-- A name bound to a truthy value survives the whole merge loop. -/
theorem buildEnv_fold_preserves (proc : List (String × String)) (m : List (String × String))
    (n w : String) (h : mapGet m n = some w) (hw : w ≠ "") :
    mapGet (proc.foldl (fun m p => mergeMcpVar m p.1 p.2) m) n = some w := by
  induction proc generalizing m with
  | nil => simpa using h
  | cons p ps ih => exact ih _ (mergeMcpVar_preserves m p.1 p.2 n w h hw)

/-! ## Claim theorems -/

/-- Claim C4: argument parsing tries array passthrough, then a JSON
array parse of a string input, then whitespace splitting with empty
tokens discarded; in particular `parseArgs(["a","b"]) = ["a","b"]`,
`parseArgs(JSON.stringify(["x","y"])) = ["x","y"]` and
`parseArgs("x y") = ["x","y"]`. -/
theorem parseArgs_spec
    (xs : List JsonValue) (s : String) (ys : List JsonValue)
    (hjson : jsonParse s = some (JsonValue.arr ys)) :
    parseArgs (ArgsInput.arrIn xs) = xs.map JsonValue.jsString ∧
    parseArgs (ArgsInput.strIn s) = ys.map JsonValue.jsString ∧
    (∀ t : String, (∀ zs : List JsonValue, jsonParse t ≠ some (JsonValue.arr zs)) →
      parseArgs (ArgsInput.strIn t) = splitFilter t) ∧
    parseArgs (ArgsInput.arrIn [JsonValue.str "a", JsonValue.str "b"]) = ["a", "b"] ∧
    parseArgs (ArgsInput.strIn "[\"x\",\"y\"]") = ["x", "y"] ∧
    parseArgs (ArgsInput.strIn "x y") = ["x", "y"] := by
  refine ⟨rfl, by simp [parseArgs, hjson], ?_, rfl, rfl, rfl⟩
  intro t ht
  rcases h : jsonParse t with _ | v
  · simp [parseArgs, h]
  · cases v with
    | arr zs => exact absurd h (ht zs)
    | null => simp [parseArgs, h]
    | bool b => simp [parseArgs, h]
    | num r => simp [parseArgs, h]
    | str s => simp [parseArgs, h]
    | obj kvs => simp [parseArgs, h]

/-- Claim C4, witness: the JSON round-trip instance evaluated at the
concrete encoding of `["x","y"]`. -/
theorem parseArgs_spec_witness :
    jsonParse "[\"x\",\"y\"]" = some (JsonValue.arr [JsonValue.str "x", JsonValue.str "y"]) ∧
    parseArgs (ArgsInput.strIn "[\"x\",\"y\"]") = ["x", "y"] :=
  ⟨rfl, (parseArgs_spec [] "[\"x\",\"y\"]" [JsonValue.str "x", JsonValue.str "y"] rfl).2.2.2.2.1⟩

/-- Claim C5, counterexample: a key the explicit config supplies with
the empty-string value IS overridden by the `MCP_` process variable,
because the merge guard tests truthiness rather than presence. -/
theorem buildEnv_overrides_empty_config_value :
    mapGet (buildEnvBase (EnvInput.objIn [("FOO", JsonValue.str "")])) "FOO" = some "" ∧
    mapGet (buildEnv (EnvInput.objIn [("FOO", JsonValue.str "")]) [("MCP_FOO", "2")]) "FOO"
      = some "2" :=
  ⟨rfl, rfl⟩

/-- Claim C5, amended: the config env is accepted as an object or a
JSON-encoded object string, and an `MCP_<NAME>` process variable never
overrides a key whose config-supplied value is non-empty; in
particular config `FOO="1"` beats process `MCP_FOO="2"`.  (A key
supplied with the empty-string value is overridden.) -/
theorem buildEnv_config_wins (kvs : List (String × JsonValue)) (s : String)
    (proc : List (String × String)) (n v : String)
    (hjson : jsonParse s = some (JsonValue.obj kvs))
    (hbase : mapGet (buildEnvBase (EnvInput.objIn kvs)) n = some v)
    (hv : v ≠ "") :
    buildEnvBase (EnvInput.strIn s) = buildEnvBase (EnvInput.objIn kvs) ∧
    mapGet (buildEnv (EnvInput.objIn kvs) proc) n = some v ∧
    mapGet (buildEnv (EnvInput.objIn [("FOO", JsonValue.str "1")]) [("MCP_FOO", "2")]) "FOO"
      = some "1" := by
  refine ⟨by simp [buildEnvBase, parseEnvInput, hjson], ?_, rfl⟩
  unfold buildEnv
  exact buildEnv_fold_preserves proc _ n v hbase hv

/-- Claim C5, witness: the concrete merge-precedence instance, with the
config env also given in its JSON-string form. -/
theorem buildEnv_config_wins_witness :
    mapGet (buildEnv (EnvInput.objIn [("FOO", JsonValue.str "1")]) [("MCP_FOO", "2")]) "FOO"
      = some "1" ∧
    buildEnvBase (EnvInput.strIn "\x7b\"FOO\":\"1\"\x7d")
      = buildEnvBase (EnvInput.objIn [("FOO", JsonValue.str "1")]) :=
  ⟨(buildEnv_config_wins [("FOO", JsonValue.str "1")] "\x7b\"FOO\":\"1\"\x7d"
      [("MCP_FOO", "2")] "FOO" "1" rfl rfl (by decide)).2.2,
   (buildEnv_config_wins [("FOO", JsonValue.str "1")] "\x7b\"FOO\":\"1\"\x7d"
      [("MCP_FOO", "2")] "FOO" "1" rfl rfl (by decide)).1⟩

/-- Claim C2, counterexample: the index3 variant's `register` completes
successfully on an empty server list (it logs a warning and returns),
contradicting the claim that every registration with an empty list
fails. -/
theorem index3Register_empty_succeeds :
    index3Register (some []) (fun _ => Except.error "unreachable") = Except.ok [] := rfl

/-- Claim C2, amended: on an empty (or missing) server list the
`register` of index.ts and part_002 fails with the `RuntimeError`
`At least one MCP server configuration is required.`, while the
index3.ts variant completes successfully without connecting any
server. -/
theorem register_empty_list (servers : Option (List ServerEntry))
    (setup : ServerEntry → Except String Unit)
    (h : servers = none ∨ servers = some []) :
    indexRegisterConfigs servers =
      Except.error (JsError.runtimeError "At least one MCP server configuration is required.") ∧
    index3Register servers setup = Except.ok [] := by
  rcases h with h | h <;> subst h <;> exact ⟨rfl, rfl⟩

/-- Claim C2, witness: the amended statement at a missing server
list. -/
theorem register_empty_list_witness :
    indexRegisterConfigs none =
      Except.error (JsError.runtimeError "At least one MCP server configuration is required.") ∧
    index3Register none (fun _ => Except.ok ()) = Except.ok [] :=
  register_empty_list none (fun _ => Except.ok ()) (Or.inl rfl)

/-- Claim C1, counterexample: the client3 `MCPClient.disconnect`
rethrows a close failure to its caller (after logging and marking the
client disconnected), contradicting `never propagated`. -/
theorem client3Disconnect_propagates :
    client3Disconnect ⟨true, 1⟩ (Except.error "close failed") =
      (⟨false, 1⟩, Except.error "close failed") := rfl

/-- Claim C1, amended: the part_003 disconnect swallows every close
outcome (a transport without `close` is a no-op); the client3
disconnect marks the client disconnected but rethrows the close error;
the index3 `unregister` teardown catches and logs each client's
disconnect failure and empties the connection map regardless of the
close outcomes. -/
theorem teardown_best_effort (m : List (String × Client3State))
    (closeOf : String → Except String Unit) (t : TransportClose)
    (st : Client3State) (e nm : String) (hst : st.connected = true) :
    (index3Unregister m closeOf).1 = [] ∧
    p3Disconnect t = Except.ok () ∧
    (client3Disconnect st (Except.error e)).2 = Except.error e ∧
    (client3Disconnect st (Except.error e)).1.connected = false ∧
    index3Unregister [(nm, st)] (fun _ => Except.error e) =
      ([], ["Error disconnecting client for " ++ nm ++ ": " ++ e]) := by
  refine ⟨rfl, ?_, ?_, ?_, ?_⟩
  · cases t with
    | noClose => rfl
    | closes r => cases r <;> rfl
  · simp [client3Disconnect, hst]
  · simp [client3Disconnect, hst]
  · simp [index3Unregister, client3Disconnect, hst]

/-- Claim C1, witness: a connected client whose close fails is logged
and removed by `unregister`, which itself returns normally. -/
theorem teardown_best_effort_witness :
    index3Unregister [("gh", ⟨true, 1⟩)] (fun _ => Except.error "boom") =
      ([], ["Error disconnecting client for " ++ "gh" ++ ": " ++ "boom"]) :=
  (teardown_best_effort [] (fun _ => Except.ok ()) TransportClose.noClose
    ⟨true, 1⟩ "boom" "gh" rfl).2.2.2.2

/-- Claim C3: the connect race uses the fixed 30000 ms timeout; when
the timeout wins (the underlying connect has not settled before
30000 ms), the attempt fails with the `Connection timeout` error and
the connection map is returned unchanged, with no entry stored for the
internal name. -/
theorem connect_timeout (m : List (String × Client3State)) (internalName qn : String)
    (sInfo : ServerInfo) (conn : RegistryConn) (connectAt : Nat)
    (underlying : Except String Unit)
    (hmiss : mapGet m internalName = none)
    (hws : sInfo.connections.find? (fun c => c.type = "ws") = some conn)
    (hlate : connectTimeoutMs ≤ connectAt) :
    connectTimeoutMs = 30000 ∧
    getOrReconnectClient m internalName (Except.ok qn) (Except.ok sInfo) connectAt underlying
      = (m, Except.error (JsError.raw "Connection timeout")) := by
  refine ⟨rfl, ?_⟩
  unfold getOrReconnectClient
  rw [hmiss]
  simp [client3Connect, hws, Nat.not_lt.mpr hlate]

/-- Claim C3, witness: a connect settling exactly at the timeout loses
the race, leaving the empty map unchanged. -/
theorem connect_timeout_witness :
    getOrReconnectClient [] "gh" (Except.ok "@owner/repo")
        (Except.ok ⟨"@owner/repo", "Repo", "https://x", [⟨"ws", none⟩]⟩) 30000 (Except.ok ())
      = ([], Except.error (JsError.raw "Connection timeout")) :=
  (connect_timeout [] "gh" "@owner/repo" ⟨"@owner/repo", "Repo", "https://x", [⟨"ws", none⟩]⟩
    ⟨"ws", none⟩ 30000 (Except.ok ()) rfl rfl (by decide)).2

/-- Claim C10: `connect` on an already-connected client returns
immediately with the state (including the transport count) unchanged,
and `disconnect` on a client that is not connected is a no-op; both
operations are safe to repeat in any state. -/
theorem connect_disconnect_idempotent (st st2 : Client3State) (qn : String)
    (registry : Except String ServerInfo) (connectAt : Nat)
    (underlying closeOutcome : Except String Unit)
    (hconn : st.connected = true) (hdis : st2.connected = false) :
    client3Connect st qn registry connectAt underlying = (st, Except.ok ()) ∧
    client3Disconnect st2 closeOutcome = (st2, Except.ok ()) := by
  constructor
  · simp [client3Connect, hconn]
  · simp [client3Disconnect, hdis]

/-- Claim C10, witness: a connected client ignores even a failing
registry, and a disconnected client ignores even a failing close. -/
theorem connect_disconnect_idempotent_witness :
    client3Connect ⟨true, 3⟩ "@o/r" (Except.error "registry down") 0 (Except.ok ())
        = (⟨true, 3⟩, Except.ok ()) ∧
    client3Disconnect ⟨false, 0⟩ (Except.error "boom") = (⟨false, 0⟩, Except.ok ()) :=
  connect_disconnect_idempotent ⟨true, 3⟩ ⟨false, 0⟩ "@o/r" (Except.error "registry down")
    0 (Except.ok ()) (Except.error "boom") rfl rfl

/-- Claim C6: `findServerConfiguration` returns the direct `getServer`
result when that lookup succeeds; on failure it searches with the query
derived from the owner/repo components, re-resolves the first hit
through `getServer`; and it produces the `Could not find server`
resolution error exactly when the search also yields nothing. -/
theorem findServerConfiguration_policy
    (getB : String → Except String ServerInfo)
    (listB : String → Except String SearchResults)
    (q e : String) (rInfo : ServerInfo)
    (first : ServerInfo) (rest : List ServerInfo) (res : SearchResults) :
    (getB (normalizeQualifiedName q) = Except.ok rInfo →
      findServerConfiguration getB listB q = Except.ok rInfo) ∧
    (getB (normalizeQualifiedName q) = Except.error e →
      listB (deriveSearchQuery q) = Except.ok res →
      res.servers = some (first :: rest) →
      findServerConfiguration getB listB q = getServerCall getB first.qualifiedName) ∧
    (getB (normalizeQualifiedName q) = Except.error e →
      listB (deriveSearchQuery q) = Except.ok res →
      (res.servers = some [] ∨ res.servers = none) →
      findServerConfiguration getB listB q =
        Except.error ("Could not find server matching " ++ q)) := by
  refine ⟨?_, ?_, ?_⟩
  · intro hd
    simp [findServerConfiguration, getServerCall, hd]
  · intro hd hl hs
    simp [findServerConfiguration, getServerCall, listServersCall, hd, hl, hs]
  · intro hd hl hs
    rcases hs with hs | hs <;>
      simp [findServerConfiguration, getServerCall, listServersCall, hd, hl, hs]

/-- Claim C6, witness: the spec's scenario evaluated concretely: the
direct lookup of `owner/repo` fails, the fallback search returns one
match, and the result is that match's full info. -/
theorem findServerConfiguration_policy_witness :
    findServerConfiguration regGetStub regListStub "owner/repo" = Except.ok serverB :=
  (findServerConfiguration_policy regGetStub regListStub "owner/repo"
      "Request failed with status code 404" serverB serverA [] ⟨some [serverA]⟩).2.1
    rfl rfl rfl

/-- Claim C7, counterexample: `executeTool` parses `stringParameters`
with `JSON.parse` outside its `try` block, so a malformed string
escapes the action as a raw, unwrapped exception rather than a
`RuntimeError`. -/
theorem executeTool_raw_escape :
    executeToolAction [("srv", 0)] "srv" "toolA" (some "not json") (Except.ok JsonValue.null)
      = Except.error
          (JsError.raw "SyntaxError: Unexpected token in JSON at position 0: not json") := rfl

/-- Claim C7, amended: every RPC failure inside an action's `try` block
is wrapped into the single user-facing `RuntimeError` kind with a
descriptive message; the exception is `executeTool`'s parameter
parsing, which runs outside the `try` and lets a raw `SyntaxError`
escape. -/
theorem action_errors_wrapped (cache : List (String × Nat)) (k : Nat)
    (internalName toolName e s : String) (p : JsonValue)
    (hcache : mapGet cache internalName = some k)
    (hs : jsonParse s = some p) :
    executeToolAction cache internalName toolName none (Except.error e) =
      Except.error (JsError.runtimeError
        ("Failed to execute tool \"" ++ toolName ++ "\" on " ++ internalName ++ ": " ++ e)) ∧
    executeToolAction cache internalName toolName (some s) (Except.error e) =
      Except.error (JsError.runtimeError
        ("Failed to execute tool \"" ++ toolName ++ "\" on " ++ internalName ++ ": " ++ e)) ∧
    listToolsAction cache internalName (Except.error e) =
      Except.error (JsError.runtimeError
        ("Failed to list tools from " ++ internalName ++ ": " ++ e)) ∧
    listResourcesAction cache internalName (Except.error e) =
      Except.error (JsError.runtimeError
        ("Failed to list resources from " ++ internalName ++ ": " ++ e)) := by
  refine ⟨?_, ?_, ?_, ?_⟩
  · simp [executeToolAction, executeToolTry, hcache]
  · by_cases hempty : s = ""
    · subst hempty
      simp [executeToolAction, executeToolTry, hcache]
    · simp [executeToolAction, executeToolTry, hcache, hempty, hs]
  · simp [listToolsAction, hcache]
  · simp [listResourcesAction, hcache]

/-- Claim C7, witness: a failing `callTool` with well-formed parameters
surfaces as the wrapped `RuntimeError`. -/
theorem action_errors_wrapped_witness :
    executeToolAction [("srv", 0)] "srv" "toolA" (some "\x7b\x7d") (Except.error "rpc down") =
      Except.error (JsError.runtimeError
        ("Failed to execute tool \"" ++ "toolA" ++ "\" on " ++ "srv" ++ ": " ++ "rpc down")) :=
  (action_errors_wrapped [("srv", 0)] 0 "srv" "toolA" "rpc down" "\x7b\x7d"
    (JsonValue.obj []) rfl rfl).2.1

/-- Claim C8, counterexample: a raw tool whose description is present
but empty is projected to the default `Execute the t tool`, not to its
own (empty) description, because the source uses the falsy `||`
default. -/
theorem listTools_empty_description_defaulted :
    listToolsAction [("srv", 0)] "srv"
        (Except.ok (some [{ name := some "t", description := some "", inputSchema := none }]))
      = Except.ok [{ name := "t", description := "Execute the t tool", schema := none }] ∧
    "Execute the t tool" ≠ "" :=
  ⟨rfl, by decide⟩

/-- Claim C8, amended: the `listTools` action projects every raw tool
to `(name, description, schema)` where the description equals the raw
description when present and non-empty and otherwise defaults to
`Execute the <name> tool` (the name falling back to `?`, the projected
name to `Unnamed Tool`). -/
theorem listTools_projection (cache : List (String × Nat)) (k : Nat)
    (internalName : String) (ts : List RawTool)
    (hcache : mapGet cache internalName = some k) :
    listToolsAction cache internalName (Except.ok (some ts)) = Except.ok (ts.map projectTool) ∧
    (∀ tool : RawTool,
      (projectTool tool).description = specToolDescription tool ∧
      (projectTool tool).name = tool.name.getD "Unnamed Tool" ∧
      (projectTool tool).schema = tool.inputSchema) := by
  constructor
  · simp [listToolsAction, hcache]
  · intro tool
    refine ⟨?_, rfl, rfl⟩
    unfold projectTool specToolDescription
    rcases tool with ⟨nm, d, sch⟩
    rcases d with _ | d
    · rfl
    · by_cases hd : d = "" <;> simp [hd]

/-- Claim C8, witness: the projection evaluated on a one-tool result
with an absent description. -/
theorem listTools_projection_witness :
    listToolsAction [("srv", 0)] "srv"
        (Except.ok (some [{ name := some "t", description := none, inputSchema := none }]))
      = Except.ok
          ([({ name := some "t", description := none, inputSchema := none } : RawTool)].map
            projectTool) :=
  (listTools_projection [("srv", 0)] 0 "srv"
    [{ name := some "t", description := none, inputSchema := none }] rfl).1

/-- Claim C9: in the cached-client variant, an action invoked with an
internal name that has no cached client succeeds with an empty or
undefined result (optional chaining makes the RPC expression
`undefined`): `listResources` returns `resources = []`, `listTools`
returns `tools = []`, `executeTool` returns an undefined result. -/
theorem actions_missing_client_succeed (cache : List (String × Nat))
    (internalName toolName : String)
    (rpcT : Except String (Option (List RawTool)))
    (rpcR : Except String (Option (List JsonValue)))
    (rpcE : Except String JsonValue)
    (hmiss : mapGet cache internalName = none) :
    listResourcesAction cache internalName rpcR = Except.ok [] ∧
    listToolsAction cache internalName rpcT = Except.ok [] ∧
    executeToolAction cache internalName toolName none rpcE = Except.ok none := by
  refine ⟨?_, ?_, ?_⟩ <;>
    simp [listResourcesAction, listToolsAction, executeToolAction, executeToolTry, hmiss]

/-- Claim C9, witness: the three actions evaluated against the empty
cache. -/
theorem actions_missing_client_succeed_witness :
    listResourcesAction [] "gh" (Except.error "never sent") = Except.ok [] ∧
    listToolsAction [] "gh" (Except.error "never sent") = Except.ok [] ∧
    executeToolAction [] "gh" "toolA" none (Except.error "never sent") = Except.ok none :=
  actions_missing_client_succeed [] "gh" "toolA" (Except.error "never sent")
    (Except.error "never sent") (Except.error "never sent") rfl
